import Mathlib

/-!
# Verification of the BRP WebSocket relay (`src/lib.rs`)

A shallow embedding of the relay's pure control flow:

* `Json` models `serde_json::Value` (numbers restricted to integers, which
  covers every value the relay itself constructs).
* `make_response` and `send_error_response` embed the frame builders.
* `process_request` embeds the message router / response relay loop as a
  pure function of the parse outcome, the availability of the executor
  intake, the sequence of items the executor yields on the per-request
  channel before closing it, and an oracle giving the success of each
  successive socket write.
* `relayStatusStep` embeds the connectivity-flag updates performed by the
  `onopen` / `onclose` / `onerror` / `onmessage` closures of
  `start_websocket_relay`.
-/

/-- Model of `serde_json::Value` (numbers as integers). -/
inductive Json where
  | null : Json
  | bool (b : Bool) : Json
  | num (n : Int) : Json
  | str (s : String) : Json
  | arr (xs : List Json) : Json
  | obj (fields : List (String × Json)) : Json

/-- Field lookup, embedding `Value::get(key)`: a map lookup on objects,
`None` on every other variant. -/
def Json.get (j : Json) (key : String) : Option Json :=
  match j with
  | .obj fields => fields.lookup key
  | _ => none

/-- Embeds `Value::as_str`. -/
def Json.asStr (j : Json) : Option String :=
  match j with
  | .str s => some s
  | _ => none

/-- Whether a serialized object would carry the given key. -/
def Json.hasKey (j : Json) (key : String) : Bool :=
  (j.get key).isSome

/-- Serialization of `Option<&Value>` for the `id` slot: serde renders
`None` as JSON `null` and `Some v` as `v`. -/
def idToJson : Option Json → Json
  | none => Json.null
  | some v => v

/-- Substring containment on lists (the match may start anywhere). -/
def listContains (pat : List Char) : List Char → Bool
  | [] => pat.isEmpty
  | c :: rest => (pat.isPrefixOf (c :: rest)) || listContains pat rest

/-- Embeds Rust `str::contains(pat)` for string patterns. -/
def strContains (s pat : String) : Bool :=
  listContains pat.toList s.toList

/-- The outcome of `serde_json::to_value(&err)` on the executor's structured
error: `some v` when serialization succeeds with value `v`, `none` when it
fails.  The structured error type itself lives in the external `bevy_remote`
crate, so the relay is modelled parametrically in this outcome. -/
abbrev SerBrpError := Option Json

/-- Embeds `make_response` (`src/lib.rs` lines 236–254), producing the
response envelope.  The Rust function then serializes this object with
`to_string`; the embedding keeps the structured value, whose field order
matches the `json!` literals. -/
def make_response (id : Option Json) (result : Except SerBrpError Json) : Json :=
  match result with
  | .ok value =>
      Json.obj
        [("jsonrpc", Json.str "2.0"), ("id", idToJson id), ("result", value)]
  | .error err =>
      let error_value := err.getD (Json.obj [("code", Json.num (-32603))])
      Json.obj
        [("jsonrpc", Json.str "2.0"), ("id", idToJson id), ("error", error_value)]

/-- Embeds `send_error_response` (`src/lib.rs` lines 256–266): the protocol
error envelope it writes to the socket (the Rust function discards the write
result with `let _ =`). -/
def send_error_response (id : Option Json) (code : Int) (message : String) : Json :=
  Json.obj
    [("jsonrpc", Json.str "2.0"),
     ("id", idToJson id),
     ("error", Json.obj [("code", Json.num code), ("message", Json.str message)])]

/-- Observable outcome of one `process_request` invocation. -/
structure ProcOutcome where
  /-- The frames whose write to the socket was attempted, in order. -/
  frames : List Json
  /-- Whether a `BrpMessage` reached the executor intake. -/
  submitted : Bool
  /-- How many items were received from the per-request response channel. -/
  itemsRead : Nat
  /-- Capacity of the per-request channel, when one was created. -/
  channelCapacity : Option Nat

/-- Embeds the `while let Ok(result) = result_receiver.recv().await` loop of
the watch branch (`src/lib.rs` lines 223–229): each received item is turned
into a frame and written; a failed write breaks the loop before the next
receive.  `writeOk k` is the success of the `k`-th write attempt of this
request; the returned pair is (attempted frames, items received). -/
def streamLoop (id : Option Json) (writeOk : Nat → Bool) :
    List (Except SerBrpError Json) → Nat → List Json × Nat
  | [], _ => ([], 0)
  | item :: rest, k =>
      let response := make_response id item
      if writeOk k then
        let (fs, n) := streamLoop id writeOk rest (k + 1)
        (response :: fs, n + 1)
      else
        ([response], 1)

/-- Embeds `process_request` (`src/lib.rs` lines 182–234).

* `parse` is the outcome of `serde_json::from_str(&text)` (the JSON parser
  is `serde_json` library code; its error rendering `<details>` is the
  string carried by `.error`).
* `intakeOpen` is whether `sender.send(message)` succeeds (`false` models a
  closed `BrpSender` channel).
* `items` is the sequence of `Result<Value, BrpError>` values the executor
  sends on the per-request channel before dropping its producer handle,
  with each error already reduced to its `serde_json::to_value` outcome.
* `writeOk k` gives the success of the `k`-th socket write of this request
  (only the watch loop inspects it; every other write result is discarded
  by the source). -/
def process_request (parse : Except String Json) (intakeOpen : Bool)
    (items : List (Except SerBrpError Json)) (writeOk : Nat → Bool) :
    ProcOutcome :=
  match parse with
  | .error e =>
      { frames := [send_error_response none (-32700) ("Parse error: " ++ e)],
        submitted := false, itemsRead := 0, channelCapacity := none }
  | .ok request =>
      let id := request.get "id"
      match (request.get "method").bind Json.asStr with
      | none =>
          { frames := [send_error_response id (-32600) "Missing method field"],
            submitted := false, itemsRead := 0, channelCapacity := none }
      | some method =>
          let is_watch := strContains method "+watch"
          let channel_size := if is_watch then 8 else 1
          if intakeOpen then
            if is_watch then
              let sl := streamLoop id writeOk items 0
              { frames := sl.1, submitted := true, itemsRead := sl.2,
                channelCapacity := some channel_size }
            else
              match items with
              | [] =>
                  { frames := [], submitted := true, itemsRead := 0,
                    channelCapacity := some channel_size }
              | item :: _ =>
                  { frames := [make_response id item], submitted := true,
                    itemsRead := 1, channelCapacity := some channel_size }
          else
            { frames := [send_error_response id (-32603) "BRP channel closed"],
              submitted := false, itemsRead := 0,
              channelCapacity := some channel_size }

/-- WebSocket lifecycle events, as seen by the closures installed in
`start_websocket_relay`. -/
inductive WsEvent where
  | onopen : WsEvent
  | onmessage (text : String) : WsEvent
  | onclose (code : Nat) (reason : String) : WsEvent
  | onerror : WsEvent
  deriving DecidableEq, Repr

/-- Embeds the effect of each lifecycle closure on the `BrpRelayStatus`
atomic flag (`src/lib.rs` lines 156–178): `onopen` stores `true`, `onclose`
stores `false`, `onerror` only logs, `onmessage` never touches the flag. -/
def relayStatusStep (s : Bool) (e : WsEvent) : Bool :=
  match e with
  | .onopen => true
  | .onclose _ _ => false
  | .onerror => s
  | .onmessage _ => s

/-- The flag after a sequence of events, starting from the
`AtomicBool::new(false)` of `BrpRelayStatus::default`. -/
def relayStatusAfter (events : List WsEvent) : Bool :=
  events.foldl relayStatusStep false

/-- Whether a parse outcome denotes a validated request whose method name
contains `"+watch"` (the `is_watch` flag computed at `src/lib.rs` line 207). -/
def requestIsWatch : Except String Json → Bool
  | .error _ => false
  | .ok r =>
      match (r.get "method").bind Json.asStr with
      | none => false
      | some m => strContains m "+watch"

/-! ## Helper lemmas -/

theorem make_response_get_id (id : Option Json) (result : Except SerBrpError Json) :
    (make_response id result).get "id" = some (idToJson id) := by
  cases result <;> rfl

theorem send_error_response_get_id (id : Option Json) (code : Int) (message : String) :
    (send_error_response id code message).get "id" = some (idToJson id) := rfl

theorem streamLoop_mem (id : Option Json) (w : Nat → Bool) :
    ∀ (items : List (Except SerBrpError Json)) (k : Nat) (f : Json),
      f ∈ (streamLoop id w items k).1 → ∃ item ∈ items, f = make_response id item := by
  intro items
  induction items with
  | nil => intro k f hf; simp [streamLoop] at hf
  | cons item rest ih =>
      intro k f hf
      by_cases hw : w k
      · simp only [streamLoop, hw, if_pos] at hf
        rcases List.mem_cons.mp hf with h | h
        · exact ⟨item, List.mem_cons_self _ _, h⟩
        · rcases ih (k + 1) f h with ⟨it, hit, hfe⟩
          exact ⟨it, List.mem_cons_of_mem _ hit, hfe⟩
      · simp only [streamLoop, hw, if_neg, Bool.false_eq_true, not_false_iff,
          List.mem_singleton] at hf
        exact ⟨item, List.mem_cons_self _ _, hf⟩

theorem streamLoop_all_ok (id : Option Json) (w : Nat → Bool) (hw : ∀ k, w k = true) :
    ∀ (items : List (Except SerBrpError Json)) (k : Nat),
      streamLoop id w items k = (items.map (make_response id), items.length) := by
  intro items
  induction items with
  | nil => intro k; rfl
  | cons item rest ih => intro k; simp [streamLoop, hw k, ih (k + 1)]

theorem streamLoop_stop (id : Option Json) (w : Nat → Bool) :
    ∀ (items : List (Except SerBrpError Json)) (s k : Nat),
      w (s + k) = false → (∀ j, j < k → w (s + j) = true) →
      (streamLoop id w items s).2 = min items.length (k + 1) ∧
      (streamLoop id w items s).1.length = min items.length (k + 1) := by
  intro items
  induction items with
  | nil => intro s k _ _; simp [streamLoop]
  | cons item rest ih =>
      intro s k hfail hprev
      cases k with
      | zero =>
          have hs : w s = false := by simpa using hfail
          simp [streamLoop, hs]
      | succ k' =>
          have hs : w s = true := by
            have := hprev 0 (Nat.succ_pos k')
            simpa using this
          have hfail' : w (s + 1 + k') = false := by
            have : s + 1 + k' = s + (k' + 1) := by omega
            rw [this]; exact hfail
          have hprev' : ∀ j, j < k' → w (s + 1 + j) = true := by
            intro j hj
            have : s + 1 + j = s + (j + 1) := by omega
            rw [this]; exact hprev (j + 1) (by omega)
          obtain ⟨h2, h1⟩ := ih (s + 1) k' hfail' hprev'
          simp only [streamLoop, hs, if_pos]
          constructor
          · simp only [h2, List.length_cons]
            omega
          · simp only [List.length_cons, h1]
            omega

/-! ## Claim theorems -/

/-- C3: for every input text that is not valid JSON (`serde_json::from_str`
fails with details `e`), `process_request` writes exactly one error frame
`{"jsonrpc":"2.0","id":null,"error":{"code":-32700,"message":"Parse error:
<details>"}}` carrying no auxiliary data fields, reads nothing from any
channel, and never submits the request to the executor. -/
theorem parse_error_single_frame (e : String) (intakeOpen : Bool)
    (items : List (Except SerBrpError Json)) (writeOk : Nat → Bool) :
    process_request (Except.error e) intakeOpen items writeOk =
      { frames := [Json.obj
          [("jsonrpc", Json.str "2.0"),
           ("id", Json.null),
           ("error", Json.obj
             [("code", Json.num (-32700)),
              ("message", Json.str ("Parse error: " ++ e))])]],
        submitted := false, itemsRead := 0, channelCapacity := none } := rfl

/-- C4: for every input that parses as JSON but whose `method` field is
missing or not a string, `process_request` writes exactly one error frame
with code `-32600` and message `"Missing method field"`, echoing whatever
`id` field was present (absent serializes as null), and never submits the
request to the executor. -/
theorem missing_method_single_frame (r : Json) (intakeOpen : Bool)
    (items : List (Except SerBrpError Json)) (writeOk : Nat → Bool)
    (h : (r.get "method").bind Json.asStr = none) :
    process_request (Except.ok r) intakeOpen items writeOk =
      { frames := [Json.obj
          [("jsonrpc", Json.str "2.0"),
           ("id", idToJson (r.get "id")),
           ("error", Json.obj
             [("code", Json.num (-32600)),
              ("message", Json.str "Missing method field")])]],
        submitted := false, itemsRead := 0, channelCapacity := none } := by
  simp only [process_request, h]
  rfl

/-- Witness for `missing_method_single_frame` at the spec's input
`{"id":3}`. -/
theorem missing_method_single_frame_witness :
    process_request (Except.ok (Json.obj [("id", Json.num 3)])) true []
        (fun _ => true) =
      { frames := [Json.obj
          [("jsonrpc", Json.str "2.0"),
           ("id", Json.num 3),
           ("error", Json.obj
             [("code", Json.num (-32600)),
              ("message", Json.str "Missing method field")])]],
        submitted := false, itemsRead := 0, channelCapacity := none } :=
  missing_method_single_frame (Json.obj [("id", Json.num 3)]) true []
    (fun _ => true) rfl

/-- C5: for every validated request whose submission to the executor intake
fails (intake closed), `process_request` immediately writes exactly one
error frame with code `-32603` and message `"BRP channel closed"` using the
parsed id, submits nothing, and reads nothing from the response channel (no
relay loop runs). -/
theorem intake_closed_single_frame (r : Json) (m : String)
    (items : List (Except SerBrpError Json)) (writeOk : Nat → Bool)
    (h : (r.get "method").bind Json.asStr = some m) :
    process_request (Except.ok r) false items writeOk =
      { frames := [Json.obj
          [("jsonrpc", Json.str "2.0"),
           ("id", idToJson (r.get "id")),
           ("error", Json.obj
             [("code", Json.num (-32603)),
              ("message", Json.str "BRP channel closed")])]],
        submitted := false, itemsRead := 0,
        channelCapacity := some (if strContains m "+watch" then 8 else 1) } := by
  simp only [process_request, h]
  rfl

/-- Witness for `intake_closed_single_frame` with method `"bevy/get"` and
id `7`. -/
theorem intake_closed_single_frame_witness :
    process_request
        (Except.ok (Json.obj [("id", Json.num 7), ("method", Json.str "bevy/get")]))
        false [] (fun _ => true) =
      { frames := [Json.obj
          [("jsonrpc", Json.str "2.0"),
           ("id", Json.num 7),
           ("error", Json.obj
             [("code", Json.num (-32603)),
              ("message", Json.str "BRP channel closed")])]],
        submitted := false, itemsRead := 0, channelCapacity := some 1 } :=
  intake_closed_single_frame
    (Json.obj [("id", Json.num 7), ("method", Json.str "bevy/get")])
    "bevy/get" [] (fun _ => true) rfl

/-- C6: for every accepted request the per-request channel is created with
capacity `8` exactly when the method name contains the substring `"+watch"`
and capacity `1` otherwise; the classification depends only on that
substring test on the method string. -/
theorem channel_capacity_by_watch (r : Json) (m : String) (intakeOpen : Bool)
    (items : List (Except SerBrpError Json)) (writeOk : Nat → Bool)
    (h : (r.get "method").bind Json.asStr = some m) :
    (process_request (Except.ok r) intakeOpen items writeOk).channelCapacity =
      some (if strContains m "+watch" then 8 else 1) := by
  cases intakeOpen
  · simp only [process_request, h]
    rfl
  · by_cases hw : strContains m "+watch"
    · simp only [process_request, h, hw]
      rfl
    · cases items <;> simp [process_request, h, hw]

/-- Witness for `channel_capacity_by_watch` with method `"entity+watch"`:
capacity 8. -/
theorem channel_capacity_by_watch_witness :
    (process_request
        (Except.ok (Json.obj [("id", Json.num 1), ("method", Json.str "entity+watch")]))
        true [] (fun _ => true)).channelCapacity = some 8 :=
  channel_capacity_by_watch
    (Json.obj [("id", Json.num 1), ("method", Json.str "entity+watch")])
    "entity+watch" true [] (fun _ => true) rfl

/-- C7: the frame builder always produces an envelope with protocol version
`"2.0"`, the echoed id, and exactly one of `result` / `error`: a success
value becomes `{jsonrpc, id, result}`, a structured error becomes
`{jsonrpc, id, error}` where the error slot is the serialized structured
error, falling back to `{"code": -32603}` when that serialization fails. -/
theorem make_response_envelope (id : Option Json) (v : Json) (e : SerBrpError) :
    make_response id (Except.ok v) =
      Json.obj [("jsonrpc", Json.str "2.0"), ("id", idToJson id), ("result", v)] ∧
    make_response id (Except.error e) =
      Json.obj [("jsonrpc", Json.str "2.0"), ("id", idToJson id),
        ("error", e.getD (Json.obj [("code", Json.num (-32603))]))] ∧
    (make_response id (Except.ok v)).hasKey "jsonrpc" = true ∧
    (make_response id (Except.ok v)).hasKey "result" = true ∧
    (make_response id (Except.ok v)).hasKey "error" = false ∧
    (make_response id (Except.error e)).hasKey "jsonrpc" = true ∧
    (make_response id (Except.error e)).hasKey "error" = true ∧
    (make_response id (Except.error e)).hasKey "result" = false :=
  ⟨rfl, rfl, rfl, rfl, rfl, rfl, rfl, rfl⟩

/-- Whether an event is a close event. -/
def WsEvent.isClose : WsEvent → Bool
  | .onclose _ _ => true
  | _ => false

/-- C8: the connectivity flag (a `Bool`, so no value other than `true` or
`false` is observable) starts at `false`, is left unchanged by an error
event, and changes value only when an open event sets it to `true` from
`false` or a close event sets it to `false` from `true`. -/
theorem relay_status_transitions (s : Bool) (e : WsEvent) :
    relayStatusStep s WsEvent.onerror = s ∧
    relayStatusAfter [] = false ∧
    (relayStatusStep s e ≠ s →
      (s = false ∧ relayStatusStep s e = true ∧ e = WsEvent.onopen) ∨
      (s = true ∧ relayStatusStep s e = false ∧ e.isClose = true)) := by
  refine ⟨rfl, rfl, ?_⟩
  intro h
  cases e with
  | onopen =>
      cases s with
      | false => exact Or.inl ⟨rfl, rfl, rfl⟩
      | true => exact absurd rfl h
  | onmessage t => exact absurd rfl h
  | onclose c r =>
      cases s with
      | false => exact absurd rfl h
      | true => exact Or.inr ⟨rfl, rfl, rfl⟩
  | onerror => exact absurd rfl h

/-- Witness for `relay_status_transitions`: the open event flips the flag
from `false` to `true`. -/
theorem relay_status_transitions_witness :
    (false = false ∧ relayStatusStep false WsEvent.onopen = true ∧
      WsEvent.onopen = WsEvent.onopen) ∨
    (false = true ∧ relayStatusStep false WsEvent.onopen = false ∧
      WsEvent.onopen.isClose = true) :=
  (relay_status_transitions false WsEvent.onopen).2.2 (by decide)

/-- C10: a failed socket write of a protocol error frame or of a single-shot
response frame is silently discarded: for every request that is not a watch
request, the outcome of `process_request` does not depend on the write
results at all (no retry, no extra error frame, normal return), and at most
one frame write is ever attempted. -/
theorem write_failure_ignored (parse : Except String Json) (intakeOpen : Bool)
    (items : List (Except SerBrpError Json)) (w w' : Nat → Bool)
    (h : requestIsWatch parse = false) :
    process_request parse intakeOpen items w =
      process_request parse intakeOpen items w' ∧
    (process_request parse intakeOpen items w).frames.length ≤ 1 := by
  cases parse with
  | error e => exact ⟨rfl, by simp [process_request]⟩
  | ok r =>
      cases hm : (r.get "method").bind Json.asStr with
      | none => exact ⟨by simp [process_request, hm], by simp [process_request, hm]⟩
      | some m =>
          have hw : strContains m "+watch" = false := by
            simpa [requestIsWatch, hm] using h
          cases intakeOpen <;> cases items <;> simp [process_request, hm, hw]

/-- Witness for `write_failure_ignored`: a single-shot request produces the
same single frame whether every write fails or every write succeeds. -/
theorem write_failure_ignored_witness :
    process_request
        (Except.ok (Json.obj [("id", Json.num 7), ("method", Json.str "bevy/get")]))
        true [Except.ok Json.null] (fun _ => false) =
      process_request
        (Except.ok (Json.obj [("id", Json.num 7), ("method", Json.str "bevy/get")]))
        true [Except.ok Json.null] (fun _ => true) ∧
    (process_request
        (Except.ok (Json.obj [("id", Json.num 7), ("method", Json.str "bevy/get")]))
        true [Except.ok Json.null] (fun _ => false)).frames.length ≤ 1 :=
  write_failure_ignored
    (Except.ok (Json.obj [("id", Json.num 7), ("method", Json.str "bevy/get")]))
    true [Except.ok Json.null] (fun _ => false) (fun _ => true) rfl

/-- C2: a single-shot request (method without `"+watch"`) relays at most one
item: the frames written are exactly the responses for the first item of the
channel, if any (none when the channel closes without yielding), and no
further item is read. -/
theorem single_shot_at_most_one (r : Json) (m : String)
    (items : List (Except SerBrpError Json)) (writeOk : Nat → Bool)
    (h : (r.get "method").bind Json.asStr = some m)
    (hw : strContains m "+watch" = false) :
    process_request (Except.ok r) true items writeOk =
      { frames := (items.take 1).map (make_response (r.get "id")),
        submitted := true, itemsRead := min items.length 1,
        channelCapacity := some 1 } := by
  cases items <;> simp [process_request, h, hw]

/-- Witness for `single_shot_at_most_one`: a channel that closes without
yielding produces no frame at all. -/
theorem single_shot_at_most_one_witness :
    process_request
        (Except.ok (Json.obj [("id", Json.num 7), ("method", Json.str "bevy/get")]))
        true [] (fun _ => true) =
      { frames := [], submitted := true, itemsRead := 0,
        channelCapacity := some 1 } :=
  single_shot_at_most_one
    (Json.obj [("id", Json.num 7), ("method", Json.str "bevy/get")])
    "bevy/get" [] (fun _ => true) rfl rfl

/-- The id the router extracts from a parse outcome: `request.get("id")`
when parsing succeeded, `None` when it failed. -/
def parsedId : Except String Json → Option Json
  | .error _ => none
  | .ok r => r.get "id"

/-- C9: every outbound frame (success, executor error, or protocol error)
carries an `"id"` key, whose value is the serialization of the extracted id;
since an absent `id` field is extracted as `None` and `None` serializes as
JSON `null`, a request without an `id` field yields frames with `"id": null`
rather than frames omitting the key. -/
theorem frames_carry_id (parse : Except String Json) (intakeOpen : Bool)
    (items : List (Except SerBrpError Json)) (writeOk : Nat → Bool) (f : Json)
    (hf : f ∈ (process_request parse intakeOpen items writeOk).frames) :
    f.hasKey "id" = true ∧ f.get "id" = some (idToJson (parsedId parse)) := by
  have key : f.get "id" = some (idToJson (parsedId parse)) := by
    cases parse with
    | error e =>
        simp only [process_request, List.mem_singleton] at hf
        subst hf
        exact send_error_response_get_id _ _ _
    | ok r =>
        cases hm : (r.get "method").bind Json.asStr with
        | none =>
            simp only [process_request, hm, List.mem_singleton] at hf
            subst hf
            exact send_error_response_get_id _ _ _
        | some m =>
            cases intakeOpen with
            | false =>
                simp only [process_request, hm, Bool.false_eq_true, if_false,
                  List.mem_singleton] at hf
                subst hf
                exact send_error_response_get_id _ _ _
            | true =>
                by_cases hw : strContains m "+watch"
                · simp only [process_request, hm, hw, if_true] at hf
                  obtain ⟨item, _, hfe⟩ := streamLoop_mem _ _ items 0 f hf
                  subst hfe
                  exact make_response_get_id _ _
                · cases items with
                  | nil => simp [process_request, hm, hw] at hf
                  | cons item rest =>
                      simp only [process_request, hm, hw, Bool.false_eq_true,
                        if_false, if_true, List.mem_singleton] at hf
                      subst hf
                      exact make_response_get_id _ _
  exact ⟨by rw [Json.hasKey, key]; rfl, key⟩

/-- Witness for `frames_carry_id`: a request with no `id` field yields a
response frame whose `id` slot is JSON `null`. -/
theorem frames_carry_id_witness :
    (Json.obj [("jsonrpc", Json.str "2.0"), ("id", Json.null),
       ("result", Json.bool true)]).hasKey "id" = true ∧
    (Json.obj [("jsonrpc", Json.str "2.0"), ("id", Json.null),
       ("result", Json.bool true)]).get "id" =
      some (idToJson (parsedId
        (Except.ok (Json.obj [("method", Json.str "bevy/get")])))) :=
  frames_carry_id (Except.ok (Json.obj [("method", Json.str "bevy/get")]))
    true [Except.ok (Json.bool true)] (fun _ => true)
    (Json.obj [("jsonrpc", Json.str "2.0"), ("id", Json.null),
       ("result", Json.bool true)])
    (List.Mem.head _)

/-- C1: for a streaming request (method containing `"+watch"`): (1) when the
executor yields `n` success values and closes its handle and every write
succeeds, exactly the `n` corresponding frames are written in production
order with no extra closing frame, and all `n` items are read; (2) every
frame written carries the request's id; (3) when the `k`-th write is the
first to fail, the loop stops immediately: at most `k + 1` items are read
and at most `k + 1` writes are attempted, regardless of how many more items
the channel holds. -/
theorem watch_streams_in_order (r : Json) (m : String) (vals : List Json)
    (writeOk : Nat → Bool) (k : Nat)
    (h : (r.get "method").bind Json.asStr = some m)
    (hw : strContains m "+watch" = true) :
    ((∀ j, writeOk j = true) →
      process_request (Except.ok r) true (vals.map Except.ok) writeOk =
        { frames := vals.map (fun v => make_response (r.get "id") (Except.ok v)),
          submitted := true, itemsRead := vals.length,
          channelCapacity := some 8 }) ∧
    (∀ f ∈ (process_request (Except.ok r) true (vals.map Except.ok) writeOk).frames,
      f.get "id" = some (idToJson (r.get "id"))) ∧
    (writeOk k = false → (∀ j, j < k → writeOk j = true) →
      (process_request (Except.ok r) true (vals.map Except.ok) writeOk).itemsRead =
        min vals.length (k + 1) ∧
      (process_request (Except.ok r) true (vals.map Except.ok) writeOk).frames.length =
        min vals.length (k + 1)) := by
  refine ⟨?_, ?_, ?_⟩
  · intro hall
    simp [process_request, h, hw, streamLoop_all_ok _ _ hall,
      Function.comp_def]
  · intro f hf
    simp only [process_request, h, hw, if_true] at hf
    obtain ⟨item, _, hfe⟩ := streamLoop_mem _ _ _ 0 f hf
    subst hfe
    exact make_response_get_id _ _
  · intro hfail hprev
    have := streamLoop_stop (r.get "id") writeOk (vals.map Except.ok) 0 k
      (by simpa using hfail) (fun j hj => by simpa using hprev j hj)
    simp only [List.length_map] at this
    simp [process_request, h, hw, this.1, this.2]

/-- Witness for `watch_streams_in_order` at the spec's example: method
`"entity+watch"`, id `1`, three success values, all writes succeeding —
exactly three frames, all with id `1`, in order, no closing frame. -/
theorem watch_streams_in_order_witness :
    process_request
        (Except.ok (Json.obj [("id", Json.num 1), ("method", Json.str "entity+watch")]))
        true
        [Except.ok (Json.num 10), Except.ok (Json.num 11), Except.ok (Json.num 12)]
        (fun _ => true) =
      { frames :=
          [Json.obj [("jsonrpc", Json.str "2.0"), ("id", Json.num 1),
             ("result", Json.num 10)],
           Json.obj [("jsonrpc", Json.str "2.0"), ("id", Json.num 1),
             ("result", Json.num 11)],
           Json.obj [("jsonrpc", Json.str "2.0"), ("id", Json.num 1),
             ("result", Json.num 12)]],
        submitted := true, itemsRead := 3, channelCapacity := some 8 } :=
  (watch_streams_in_order
    (Json.obj [("id", Json.num 1), ("method", Json.str "entity+watch")])
    "entity+watch" [Json.num 10, Json.num 11, Json.num 12]
    (fun _ => true) 0 rfl rfl).1 (fun _ => rfl)
